import Mathlib

/-!
Shallow embedding of the mumzworld-api-gateway-magento-auth-lambda
authorizer: the token extraction and validation pipeline
(src/index.ts, src/services/tokenValidator.ts, src/services/secretsManager.ts),
the policy generators (src/utils/policyGenerator.ts) and the configuration
surface (src/config/index.ts), together with theorems settling the frozen
claims about the natural-language specification.
-/

namespace MwAuth

/-- A dynamically typed JSON-like value, modelling the runtime values a
decoded token payload field may hold in JavaScript (TypeScript types are
erased at runtime, so `roles`/`scopes` may hold arbitrary values). -/
inductive JsonValue where
  | null
  | bool (b : Bool)
  | num (n : Int)
  | str (s : String)
  | arr (xs : List JsonValue)

/-- JavaScript comma-join of a list of strings, as `Array.prototype.join(',')`
behaves on string elements. -/
def joinComma : List String → String
  | [] => ""
  | [x] => x
  | x :: y :: xs => x ++ "," ++ joinComma (y :: xs)

mutual

/-- JavaScript string coercion of a value, as used by `Array.prototype.join`:
null/undefined render as the empty string, booleans and numbers via their
standard string forms, nested arrays via their own comma-join. -/
def jsToStr : JsonValue → String
  | .null => ""
  | .bool b => cond b "true" "false"
  | .num n => toString n
  | .str s => s
  | .arr xs => jsJoinList xs

/-- `Array.prototype.join(',')` on a list of dynamic values. -/
def jsJoinList : List JsonValue → String
  | [] => ""
  | [x] => jsToStr x
  | x :: y :: xs => jsToStr x ++ "," ++ jsJoinList (y :: xs)

end

/-- `Array.prototype.join(',')`, the form used by `generateAllowPolicy`. -/
def jsJoin (xs : List JsonValue) : String := jsJoinList xs

/-- JavaScript truthiness of an optional string: `undefined` and the empty
string are falsy, every other string is truthy. -/
def truthyOptStr : Option String → Bool
  | none => false
  | some s => !s.isEmpty

/-- The decoded JWT payload (src/types/index.ts `JwtPayload`), with every
field optional as it is at runtime before the validator's checks, and
`roles`/`scopes` as dynamic values. `aud` is carried because `jwt.verify`
checks it against the configured audience. -/
structure JwtPayload where
  sub : Option String
  roles : Option JsonValue
  scopes : Option JsonValue
  iat : Option Int
  exp : Option Int
  nbf : Option Int
  iss : Option String
  aud : Option String
  jti : Option String
  ip : Option String

/-- An abstract compact signed token as presented to `jwt.verify`:
whether it is structurally decodable, the algorithm named in its header,
the key it was signed with, and its decoded payload. -/
structure Token where
  wellFormed : Bool
  alg : String
  signedWith : String
  payload : JwtPayload

/-- The error classes thrown by the `jsonwebtoken` library's `verify`,
which `validateToken` distinguishes with `instanceof` in its catch block. -/
inductive JwtVerifyError where
  | tokenExpired
  | notBefore
  | jsonWebToken (msg : String)

/-- Configuration surface (src/config/index.ts), with the source defaults. -/
structure Config where
  secretName : String := "magento/jwt/secret"
  issuer : String := "magento"
  audience : String := "api-gateway"
  expiresIn : Int := 3600
  algorithm : String := "HS256"
  localSecret : Option String := none
  cacheExpiryMs : Int := 300000
  cacheTtl : Int := 300

/-- The configuration with every environment variable unset. -/
def defaultConfig : Config := {}

/-- Whether the token's not-before claim lies in the future at clock
time `now` (seconds), per `jsonwebtoken`: absent `nbf` means no check. -/
def nbfFuture (nbf : Option Int) (now : Int) : Bool :=
  match nbf with
  | some n => decide (now < n)
  | none => false

/-- Whether the token's expiry has passed at clock time `now` (seconds),
per `jsonwebtoken` (`clockTimestamp >= exp`): absent `exp` means no check. -/
def expPassed (exp : Option Int) (now : Int) : Bool :=
  match exp with
  | some e => decide (e ≤ now)
  | none => false

/-- Modelled from the spec: the external `jsonwebtoken` library's `verify`
(not part of this repository), as §4.2 step 2 describes it — structural
decoding and signature verification under the configured algorithm, then
not-before, expiry, audience and issuer enforcement, each classified into
the error classes of `JwtVerifyError`. The check order (structure and
signature, then `nbf`, then `exp`, then audience, then issuer) and the
message texts follow the library. -/
def verifyJwt (cfg : Config) (tok : Token) (secret : String) (now : Int) :
    Except JwtVerifyError JwtPayload :=
  if tok.wellFormed = false then .error (.jsonWebToken "jwt malformed")
  else if tok.alg ≠ cfg.algorithm then .error (.jsonWebToken "invalid algorithm")
  else if tok.signedWith ≠ secret then .error (.jsonWebToken "invalid signature")
  else if nbfFuture tok.payload.nbf now then .error .notBefore
  else if expPassed tok.payload.exp now then .error .tokenExpired
  else if tok.payload.aud ≠ some cfg.audience then
    .error (.jsonWebToken ("jwt audience invalid. expected: " ++ cfg.audience))
  else if tok.payload.iss ≠ some cfg.issuer then
    .error (.jsonWebToken ("jwt issuer invalid. expected: " ++ cfg.issuer))
  else .ok tok.payload

/-- `TokenValidationResult` (src/types/index.ts): `isValid` plus optional
identity fields and error message. -/
structure TokenValidationResult where
  isValid : Bool
  userId : Option String := none
  roles : Option (List JsonValue) := none
  scopes : Option (List JsonValue) := none
  error : Option String := none

/-- The guard `!x || !Array.isArray(x) || x.length === 0` applied by
`validateToken` to `decoded.roles` and `decoded.scopes`: fails for an
absent value, any non-array (falsy or truthy), and the empty array;
passes for every non-empty array regardless of element types. -/
def missingOrInvalidArray : Option JsonValue → Bool
  | none => true
  | some (.arr xs) => xs.isEmpty
  | some _ => true

/-- The guard `decoded.ip && sourceIp && decoded.ip !== sourceIp`:
both sides must be truthy strings and differ. -/
def ipMismatch (tokIp sourceIp : Option String) : Bool :=
  match tokIp, sourceIp with
  | some a, some b => !a.isEmpty && !b.isEmpty && decide (a ≠ b)
  | _, _ => false

/-- The elements of a dynamic value known to be an array (the shape
`decoded.roles` has on the success path after its guard). -/
def jsonArrayElems : Option JsonValue → Option (List JsonValue)
  | some (.arr xs) => some xs
  | _ => none

/-- `TokenValidatorService.validateToken` (src/services/tokenValidator.ts):
the secret resolution outcome feeds `jwt.verify`; the catch block maps
`TokenExpiredError`, `NotBeforeError` and `JsonWebTokenError` to their
messages and any other thrown error (in particular a secret-store
failure) to "Error validating token"; then the subject, roles, scopes and
IP-binding checks run in order, short-circuiting on the first failure. -/
def validateToken (cfg : Config) (secretOutcome : Except Unit String)
    (tok : Token) (sourceIp : Option String) (now : Int) : TokenValidationResult :=
  match secretOutcome with
  | .error _ => { isValid := false, error := some "Error validating token" }
  | .ok secret =>
    match verifyJwt cfg tok secret now with
    | .error .tokenExpired => { isValid := false, error := some "Token expired" }
    | .error .notBefore => { isValid := false, error := some "Token not yet valid" }
    | .error (.jsonWebToken msg) =>
      { isValid := false, error := some ("Invalid token: " ++ msg) }
    | .ok decoded =>
      if truthyOptStr decoded.sub = false then
        { isValid := false, error := some "Missing subject (user ID) in token" }
      else if missingOrInvalidArray decoded.roles then
        { isValid := false, error := some "Missing or invalid roles in token" }
      else if missingOrInvalidArray decoded.scopes then
        { isValid := false, error := some "Missing or invalid scopes in token" }
      else if ipMismatch decoded.ip sourceIp then
        { isValid := false, error := some "IP address mismatch" }
      else
        { isValid := true, userId := decoded.sub,
          roles := jsonArrayElems decoded.roles,
          scopes := jsonArrayElems decoded.scopes }

/-- One entry of the process-wide secrets cache (src/services/secretsManager.ts
`SecretCache`): the secret value and the time it was fetched (ms). -/
structure CacheEntry where
  value : String
  timestamp : Int

/-- The process-wide secrets cache, keyed by secret name. -/
def SecretCache := List (String × CacheEntry)

/-- Lookup in the secrets cache. -/
def cacheLookup (cache : SecretCache) (name : String) : Option CacheEntry :=
  match cache with
  | [] => none
  | (k, e) :: rest => if k = name then some e else cacheLookup rest name

/-- Insert-or-replace in the secrets cache. -/
def cacheInsert (cache : SecretCache) (name : String) (entry : CacheEntry) : SecretCache :=
  match cache with
  | [] => [(name, entry)]
  | (k, e) :: rest =>
    if k = name then (k, entry) :: rest else (k, e) :: cacheInsert rest name entry

/-- The store fetch and caching portion of `getSecret`: the Secrets Manager
call either throws, or returns a response whose `SecretString` may be
absent or empty — both falsy, hence `throw` before caching; on a usable
value the cache entry is overwritten with the value and the `now` taken
before the fetch, and the value returned. The `Nat` counts underlying
store calls. -/
def fetchSecret (cache : SecretCache) (store : Except Unit (Option String))
    (secretName : String) (nowMs : Int) :
    Except Unit String × SecretCache × Nat :=
  match store with
  | .error _ => (.error (), cache, 1)
  | .ok none => (.error (), cache, 1)
  | .ok (some s) =>
    if s.isEmpty then (.error (), cache, 1)
    else (.ok s, cacheInsert cache secretName { value := s, timestamp := nowMs }, 1)

/-- `SecretsManagerService.getSecret` (src/services/secretsManager.ts):
the local-development bypass first (`useLocalSecrets` was computed in the
constructor as: not production and the configured local secret truthy),
then the freshness-checked cache, then the store fetch. Returns the
outcome, the resulting cache, and the number of store calls made. -/
def getSecret (cfg : Config) (useLocal : Bool) (cache : SecretCache)
    (store : Except Unit (Option String)) (secretName : String) (nowMs : Int) :
    Except Unit String × SecretCache × Nat :=
  if useLocal && (secretName == cfg.secretName) && truthyOptStr cfg.localSecret then
    (.ok (cfg.localSecret.getD ""), cache, 0)
  else
    match cacheLookup cache secretName with
    | some entry =>
      if nowMs - entry.timestamp < cfg.cacheExpiryMs then (.ok entry.value, cache, 0)
      else fetchSecret cache store secretName nowMs
    | none => fetchSecret cache store secretName nowMs

/-- `validateToken` together with the stateful secret resolution
(`getJwtSecret` resolves `cfg.secretName`): returns the validation result,
the updated cache, and the number of store calls. -/
def validateTokenS (cfg : Config) (useLocal : Bool) (cache : SecretCache)
    (store : Except Unit (Option String)) (tok : Token) (sourceIp : Option String)
    (nowSec nowMs : Int) : TokenValidationResult × SecretCache × Nat :=
  let r := getSecret cfg useLocal cache store cfg.secretName nowMs
  (validateToken cfg r.1 tok sourceIp nowSec, r.2.1, r.2.2)

/-- One statement of an IAM policy document. -/
structure PolicyStatement where
  Action : String
  Effect : String
  Resource : String

/-- An IAM policy document as built by `generatePolicy`. -/
structure PolicyDocument where
  Version : String
  Statement : List PolicyStatement

/-- The authorizer context attached on Allow
(src/utils/policyGenerator.ts): all values are strings. -/
structure AuthorizerContext where
  userId : String
  roles : String
  scopes : String
  userIdHeader : String
  authenticated : String
  timestamp : String

/-- `APIGatewayAuthorizerResult`: principal, policy document, and the
optional context. -/
structure AuthorizerResult where
  principalId : String
  policyDocument : PolicyDocument
  context : Option AuthorizerContext

/-- `generatePolicy` (src/utils/policyGenerator.ts): a fixed-version
document with a single statement for the `execute-api:Invoke` action. -/
def generatePolicy (principalId effect resource : String)
    (context : Option AuthorizerContext) : AuthorizerResult :=
  { principalId := principalId,
    policyDocument :=
      { Version := "2012-10-17",
        Statement := [{ Action := "execute-api:Invoke", Effect := effect,
                        Resource := resource }] },
    context := context }

/-- `generateAllowPolicy`: Allow with the identity context. The TypeScript
signature declares `string[]` roles and scopes, but the values flow from
the untyped decoded payload, so they are joined as dynamic values the way
`Array.prototype.join(',')` does. `nowIso` stands for the
`new Date().toISOString()` taken when the policy is built. -/
def generateAllowPolicy (userId resource : String)
    (roles scopes : List JsonValue) (nowIso : String) : AuthorizerResult :=
  generatePolicy userId "Allow" resource
    (some { userId := userId, roles := jsJoin roles, scopes := jsJoin scopes,
            userIdHeader := userId, authenticated := "true", timestamp := nowIso })

/-- `generateDenyPolicy`: Deny for the specific resource, no context. -/
def generateDenyPolicy (userId resource : String) : AuthorizerResult :=
  generatePolicy userId "Deny" resource none

/-- `getDenyAllPolicy`: the global deny-all artifact built from
`config.authorizer.denyAllPolicy` (src/config/index.ts), with the
"anonymous" principal and no context. -/
def getDenyAllPolicy : AuthorizerResult :=
  { principalId := "anonymous",
    policyDocument :=
      { Version := "2012-10-17",
        Statement := [{ Action := "execute-api:Invoke", Effect := "Deny",
                        Resource := "*" }] },
    context := none }

/-- The characters matched by the JavaScript regex class `\s`
(whitespace, including line terminators), restricted to the forms that
occur in HTTP header values and the common Unicode cases. -/
def jsWhitespace (c : Char) : Bool :=
  c = ' ' || c = '\t' || c = '\n' || c = '\r' || c = '\u000b' || c = '\u000c' ||
  c = '\u00a0' || c = '\ufeff' || c = '\u2028' || c = '\u2029'

/-- The characters the JavaScript dot `.` does not match (line
terminators): these may not occur in the captured token. -/
def lineTerminator (c : Char) : Bool :=
  c = '\n' || c = '\r' || c = '\u2028' || c = '\u2029'

/-- The regex match `^Bearer\s+(.*)$` (case-insensitive, no multiline
flag) on a character list: a case-insensitive "Bearer" prefix, at least
one whitespace character, and a capture running to the end of the input.
Greedy `\s+` consumes the whole whitespace run; since `.` matches no
line terminator and `$` only matches at the true end of input, the match
fails whenever a line terminator survives past the whitespace run. -/
def matchBearerChars (cs : List Char) : Option String :=
  if (cs.take 6).map Char.toLower = "bearer".data then
    let rest := cs.drop 6
    match rest with
    | [] => none
    | c :: _ =>
      if jsWhitespace c then
        let captured := rest.dropWhile jsWhitespace
        if captured.all (fun d => !lineTerminator d) then some (String.mk captured)
        else none
      else none
  else none

/-- `extractToken` (src/index.ts): an absent (or falsy empty) header
yields null; otherwise the `^Bearer\s+(.*)$` match's capture group, or
null if the header does not match. -/
def extractToken (authorizationHeader : Option String) : Option String :=
  match authorizationHeader with
  | none => none
  | some s => if s.isEmpty then none else matchBearerChars s.data

/-- The `APIGatewayTokenAuthorizerEvent` fields the handler reads. -/
structure AuthorizerEvent where
  authorizationToken : Option String
  methodArn : String

/-- The ambient state one handler invocation runs against: the
configuration, the `NODE_ENV` production flag, the process-wide secrets
cache, the secret store's behaviour for a fetch issued now, the two
clocks (seconds for JWT checks, milliseconds for the cache), the ISO
timestamp string a `Date` would render, and the decoding of a compact
token string into its abstract `Token`. -/
structure Env where
  cfg : Config
  nodeEnvProduction : Bool
  cache : SecretCache
  store : Except Unit (Option String)
  nowSec : Int
  nowMs : Int
  nowIso : String
  decode : String → Token

/-- `this.useLocalSecrets` as computed in the `SecretsManagerService`
constructor: not production, and the configured local secret truthy. -/
def envUseLocal (env : Env) : Bool :=
  !env.nodeEnvProduction && truthyOptStr env.cfg.localSecret

/-- The body of the handler's try block (src/index.ts): extract the
token (a falsy empty capture also counts as no token), validate it with
`sourceIp` set to `undefined` (token authorizers have no source IP), and
map the outcome to a policy. -/
def handlerBody (env : Env) (event : AuthorizerEvent) : AuthorizerResult :=
  match extractToken event.authorizationToken with
  | none => getDenyAllPolicy
  | some token =>
    if token.isEmpty then getDenyAllPolicy
    else
      let sourceIp : Option String := none
      let vr := (validateTokenS env.cfg (envUseLocal env) env.cache env.store
        (env.decode token) sourceIp env.nowSec env.nowMs).1
      if vr.isValid = false then generateDenyPolicy "anonymous" event.methodArn
      else generateAllowPolicy (vr.userId.getD "") event.methodArn
        (vr.roles.getD []) (vr.scopes.getD []) env.nowIso

/-- The handler's top-level catch (src/index.ts lines 38 and 68-71): a
normally computed decision passes through, any thrown error is converted
to the global deny-all policy. -/
def catchAll (chainOutcome : Except String AuthorizerResult) : AuthorizerResult :=
  match chainOutcome with
  | .ok r => r
  | .error _ => getDenyAllPolicy

/-- The exported Lambda `handler`: the try block wrapped in the
top-level catch. -/
def handler (env : Env) (event : AuthorizerEvent) : AuthorizerResult :=
  catchAll (.ok (handlerBody env event))

/-- Well-formedness of a decision artifact as §6 of the spec describes
it: the fixed policy version, a single statement for the invoke action
with an Allow or Deny effect, and a context only on Allow. -/
def wellFormedDecision (d : AuthorizerResult) : Prop :=
  d.policyDocument.Version = "2012-10-17" ∧
  ∃ eff res,
    d.policyDocument.Statement =
      [{ Action := "execute-api:Invoke", Effect := eff, Resource := res }] ∧
    (eff = "Allow" ∨ eff = "Deny") ∧
    (d.context ≠ none → eff = "Allow")

/-- A fully valid payload: subject, string roles and scopes, issuer and
audience matching the default configuration. -/
def goodPayload : JwtPayload :=
  { sub := some "u42", roles := some (.arr [.str "admin", .str "editor"]),
    scopes := some (.arr [.str "read"]), iat := some 0, exp := some 1000,
    nbf := none, iss := some "magento", aud := some "api-gateway",
    jti := none, ip := none }

/-- A well-formed token over `goodPayload`, signed with "top-secret". -/
def goodTok : Token :=
  { wellFormed := true, alg := "HS256", signedWith := "top-secret",
    payload := goodPayload }

/-- A production environment whose store holds the key `goodTok` is
signed with and whose decoder yields `goodTok`. -/
def baseEnv : Env :=
  { cfg := defaultConfig, nodeEnvProduction := true, cache := [],
    store := .ok (some "top-secret"), nowSec := 10, nowMs := 5,
    nowIso := "2026-01-01T00:00:00.000Z", decode := fun _ => goodTok }

/-- An expired token (expiry 5, validated at 2000). -/
def c4TokExpired : Token :=
  { goodTok with signedWith := "k", payload := { goodPayload with exp := some 5 } }

/-- A token whose not-before time lies in the future (100, validated at 10). -/
def c4TokNbf : Token :=
  { goodTok with signedWith := "k", payload := { goodPayload with nbf := some 100 } }

/-- A token signed with a key other than the current one. -/
def c4TokBadSig : Token := { goodTok with signedWith := "other" }

/-- A verifiable token with no subject claim. -/
def c4TokNoSub : Token :=
  { goodTok with signedWith := "k", payload := { goodPayload with sub := none } }

/-- A verifiable token whose roles claim is not an array. -/
def c4TokBadRoles : Token :=
  { goodTok with
    signedWith := "k",
    payload := { goodPayload with roles := some (.str "admin") } }

/-- A verifiable token whose scopes claim is the empty array. -/
def c4TokBadScopes : Token :=
  { goodTok with
    signedWith := "k",
    payload := { goodPayload with scopes := some (.arr []) } }

/-- An environment whose secret store fails, with an empty cache, in
production mode. -/
def failStoreEnv : Env := { baseEnv with store := .error () }

/-- A configuration with a local development secret set. -/
def cexCfg : Config := { localSecret := some "local-key" }

/-- A cache holding a fresh entry for the default secret name, whose
value differs from the configured local secret. -/
def cexCache : SecretCache :=
  [("magento/jwt/secret", { value := "cached-key", timestamp := 0 })]

/-- A development-mode environment in which the local-secret bypass is
active while the cache also holds a fresh entry. -/
def cexEnv : Env :=
  { cfg := cexCfg, nodeEnvProduction := false, cache := cexCache,
    store := .ok (some "store-key"), nowSec := 0, nowMs := 1, nowIso := "",
    decode := fun _ => goodTok }

/-- A valid token signed with "k", for the cache idempotence scenario. -/
def c6Tok : Token :=
  { goodTok with
    signedWith := "k",
    payload := { goodPayload with roles := some (.arr [.str "admin"]) } }

/-- A valid token carrying the bound IP "1.2.3.4". -/
def c7Tok : Token :=
  { goodTok with payload := { goodPayload with ip := some "1.2.3.4" } }

/-- A token whose roles array holds non-string elements and which passes
every other check. -/
def c10Tok : Token :=
  { goodTok with
    signedWith := "k",
    payload := { goodPayload with roles := some (.arr [.num 5, .bool true]) } }

/-! Helper lemmas shared by the claim theorems. -/

/-- Joining string-valued dynamic elements coincides with the plain
comma-join of the underlying strings. -/
theorem jsJoinList_map_str (rs : List String) :
    jsJoinList (rs.map JsonValue.str) = joinComma rs := by
  match rs with
  | [] => rfl
  | [x] => rfl
  | x :: y :: xs =>
    have ih := jsJoinList_map_str (y :: xs)
    simp only [List.map, jsJoinList, jsToStr, joinComma] at ih ⊢
    rw [ih]

/-- A not-before claim bounded by the clock is not in the future. -/
theorem nbfFuture_false {nbf : Option Int} {now : Int}
    (h : ∀ n, nbf = some n → n ≤ now) : nbfFuture nbf now = false := by
  cases nbf with
  | none => rfl
  | some n => simpa [nbfFuture] using not_lt.mpr (h n rfl)

/-- An expiry strictly after the clock has not passed. -/
theorem expPassed_false {exp : Option Int} {now : Int}
    (h : ∀ e, exp = some e → now < e) : expPassed exp now = false := by
  cases exp with
  | none => rfl
  | some e => simpa [expPassed] using not_le.mpr (h e rfl)

/-- Verification succeeds and returns the decoded payload when the token
is well formed, signed with the resolved secret under the configured
algorithm, not yet expired, past its not-before time, and carries the
configured audience and issuer. -/
theorem verifyJwt_ok (cfg : Config) (tok : Token) (s : String) (now : Int)
    (hwf : tok.wellFormed = true) (halg : tok.alg = cfg.algorithm)
    (hsig : tok.signedWith = s)
    (hnbf : nbfFuture tok.payload.nbf now = false)
    (hexp : expPassed tok.payload.exp now = false)
    (haud : tok.payload.aud = some cfg.audience)
    (hiss : tok.payload.iss = some cfg.issuer) :
    verifyJwt cfg tok s now = .ok tok.payload := by
  simp [verifyJwt, hwf, halg, hsig, hnbf, hexp, haud, hiss]

/-- With no observed source IP the IP-binding guard never fires. -/
theorem ipMismatch_none_right (tokIp : Option String) :
    ipMismatch tokIp none = false := by
  cases tokIp <;> rfl

/-- When verification succeeds and every semantic check passes,
`validateToken` returns the Valid result carrying the payload's
subject, roles and scopes. -/
theorem validateToken_valid (cfg : Config) (s : String) (tok : Token)
    (sourceIp : Option String) (now : Int)
    (hver : verifyJwt cfg tok s now = .ok tok.payload)
    (hsub : truthyOptStr tok.payload.sub = true)
    (hroles : missingOrInvalidArray tok.payload.roles = false)
    (hscopes : missingOrInvalidArray tok.payload.scopes = false)
    (hip : ipMismatch tok.payload.ip sourceIp = false) :
    validateToken cfg (.ok s) tok sourceIp now =
      { isValid := true, userId := tok.payload.sub,
        roles := jsonArrayElems tok.payload.roles,
        scopes := jsonArrayElems tok.payload.scopes, error := none } := by
  simp only [validateToken]
  rw [hver]
  simp [hsub, hroles, hscopes, hip]

/-- Looking up a name right after inserting it yields the new entry. -/
theorem cacheLookup_insert (cache : SecretCache) (name : String)
    (e : CacheEntry) : cacheLookup (cacheInsert cache name e) name = some e := by
  induction cache with
  | nil => simp [cacheInsert, cacheLookup]
  | cons hd tl ih =>
    by_cases h : hd.1 = name
    · simp [cacheInsert, cacheLookup, h]
    · simp [cacheInsert, cacheLookup, h, ih]

/-- No message produced by wrapping a verification error can collide with
the IP-binding failure message: the prefixes differ at the second
character. -/
theorem invalid_token_ne (msg : String) :
    "Invalid token: " ++ msg ≠ "IP address mismatch" := by
  intro h
  have h2 : ("Invalid token: " ++ msg).data = ("IP address mismatch").data :=
    congrArg String.data h
  rw [show ("Invalid token: " ++ msg).data =
    'I' :: 'n' :: ("valid token: ".data ++ msg.data) from rfl] at h2
  rw [show ("IP address mismatch").data =
    'I' :: 'P' :: " address mismatch".data from rfl] at h2
  have h3 := (List.cons.injEq _ _ _ _).mp h2
  have h4 := (List.cons.injEq _ _ _ _).mp h3.2
  exact absurd h4.1 (by decide)

/-- With the source IP `undefined` — the only way the handler ever calls
the validator — no outcome carries the IP mismatch error. -/
theorem validateToken_none_ip (cfg : Config) (so : Except Unit String)
    (tok : Token) (now : Int) :
    (validateToken cfg so tok none now).error ≠ some "IP address mismatch" := by
  simp only [validateToken]
  split
  · exact fun h => absurd (Option.some.inj h) (by decide)
  · split
    · exact fun h => absurd (Option.some.inj h) (by decide)
    · exact fun h => absurd (Option.some.inj h) (by decide)
    · next m heq => exact fun h => absurd (Option.some.inj h) (invalid_token_ne m)
    · split
      · exact fun h => absurd (Option.some.inj h) (by decide)
      · split
        · exact fun h => absurd (Option.some.inj h) (by decide)
        · split
          · exact fun h => absurd (Option.some.inj h) (by decide)
          · split
            · next hip => simp [ipMismatch_none_right] at hip
            · exact fun h => Option.noConfusion h

/-- The handler only ever returns the deny-all, a specific-resource deny
for the anonymous principal, or an allow policy for the method ARN. -/
theorem handler_shape (env : Env) (ev : AuthorizerEvent) :
    handler env ev = getDenyAllPolicy ∨
    handler env ev = generateDenyPolicy "anonymous" ev.methodArn ∨
    ∃ u rs ss, handler env ev =
      generateAllowPolicy u ev.methodArn rs ss env.nowIso := by
  show handlerBody env ev = getDenyAllPolicy ∨
    handlerBody env ev = generateDenyPolicy "anonymous" ev.methodArn ∨
    ∃ u rs ss, handlerBody env ev =
      generateAllowPolicy u ev.methodArn rs ss env.nowIso
  simp only [handlerBody]
  split
  · left; rfl
  · split
    · left; rfl
    · split
      · right; left; rfl
      · right; right; exact ⟨_, _, _, rfl⟩

/-- The deny-all artifact is a well-formed decision. -/
theorem wf_denyAll : wellFormedDecision getDenyAllPolicy :=
  ⟨rfl, "Deny", "*", rfl, Or.inr rfl, fun h => absurd rfl h⟩

/-- A specific-resource deny is a well-formed decision. -/
theorem wf_deny (u r : String) : wellFormedDecision (generateDenyPolicy u r) :=
  ⟨rfl, "Deny", r, rfl, Or.inr rfl, fun h => absurd rfl h⟩

/-- An allow policy is a well-formed decision. -/
theorem wf_allow (u r : String) (rs ss : List JsonValue) (ts : String) :
    wellFormedDecision (generateAllowPolicy u r rs ss ts) :=
  ⟨rfl, "Allow", r, rfl, Or.inl rfl, fun _ => rfl⟩

/-! Claim theorems. -/

/-- C2: for every input event the top-level handler returns a well-formed
decision and never propagates an exception: any error thrown in the
extract-validate-decide chain is caught by `catchAll` and converted to
the global deny-all decision. -/
theorem handler_never_throws (env : Env) (ev : AuthorizerEvent) :
    wellFormedDecision (handler env ev) ∧
    ∀ msg : String, catchAll (.error msg) = getDenyAllPolicy := by
  constructor
  · rcases handler_shape env ev with h | h | ⟨u, rs, ss, h⟩
    · rw [h]; exact wf_denyAll
    · rw [h]; exact wf_deny _ _
    · rw [h]; exact wf_allow _ _ _ _ _
  · intro msg; rfl

/-- C2 witness: a concrete environment and event at which the handler
yields a well-formed decision and the catch converts an error. -/
theorem handler_never_throws_witness :
    wellFormedDecision (handler baseEnv
      { authorizationToken := none, methodArn := "arn:aws:execute-api:res" }) ∧
    catchAll (.error "boom") = getDenyAllPolicy :=
  ⟨(handler_never_throws baseEnv
      { authorizationToken := none, methodArn := "arn:aws:execute-api:res" }).1,
   (handler_never_throws baseEnv
      { authorizationToken := none, methodArn := "arn:aws:execute-api:res" }).2 "boom"⟩

/-- C3: whenever the authorization credential is absent or does not match
the case-insensitive `Bearer <token>` pattern, the handler returns the
global deny-all decision: effect Deny, wildcard resource, principal
"anonymous", no context. -/
theorem no_credential_deny_all (env : Env) (ev : AuthorizerEvent)
    (h : extractToken ev.authorizationToken = none) :
    handler env ev =
      { principalId := "anonymous",
        policyDocument :=
          { Version := "2012-10-17",
            Statement := [{ Action := "execute-api:Invoke", Effect := "Deny",
                            Resource := "*" }] },
        context := none } := by
  show handlerBody env ev = _
  simp only [handlerBody]
  rw [h]
  rfl

/-- C3 witness: a header not matching the Bearer pattern yields the
global deny-all decision. -/
theorem no_credential_deny_all_witness :
    extractToken (some "Token abc") = none ∧
    handler baseEnv
        { authorizationToken := some "Token abc",
          methodArn := "arn:aws:execute-api:res" } =
      { principalId := "anonymous",
        policyDocument :=
          { Version := "2012-10-17",
            Statement := [{ Action := "execute-api:Invoke", Effect := "Deny",
                            Resource := "*" }] },
        context := none } :=
  ⟨by decide, no_credential_deny_all baseEnv _ (by decide)⟩

/-- C9: the handler always invokes the validator with an undefined source
IP, so no validation outcome reachable through the handler ever carries
the "IP address mismatch" error, whatever the token's bound IP. -/
theorem ip_mismatch_unreachable_via_handler :
    (∀ (cfg : Config) (so : Except Unit String) (tok : Token) (now : Int),
      (validateToken cfg so tok none now).error ≠ some "IP address mismatch") ∧
    (∀ (env : Env) (t : String),
      ((validateTokenS env.cfg (envUseLocal env) env.cache env.store
          (env.decode t) none env.nowSec env.nowMs).1).error ≠
        some "IP address mismatch") :=
  ⟨fun cfg so tok now => validateToken_none_ip cfg so tok now,
   fun env t => validateToken_none_ip env.cfg _ (env.decode t) env.nowSec⟩

/-- C9 witness: even a token bound to "1.2.3.4" cannot produce the IP
mismatch outcome when validated the way the handler validates. -/
theorem ip_mismatch_unreachable_via_handler_witness :
    (validateToken defaultConfig (.ok "top-secret") c7Tok none 10).error ≠
      some "IP address mismatch" :=
  ip_mismatch_unreachable_via_handler.1 defaultConfig (.ok "top-secret") c7Tok 10

/-- C10: a token whose roles array holds non-string elements, passing all
other checks, validates successfully: element types are not checked. -/
theorem nonstring_roles_accepted :
    validateToken defaultConfig (.ok "k") c10Tok none 10 =
      { isValid := true, userId := some "u42",
        roles := some [JsonValue.num 5, JsonValue.bool true],
        scopes := some [JsonValue.str "read"], error := none } := rfl

/-- C4: the validator settles failure conditions in order, short-circuiting
on the first failure, and maps each to its distinct Invalid reason: any
verification error (classified as expired, not-yet-valid, or
malformed/bad-signature with its detail) precedes the subject check,
which precedes the roles check, which precedes the scopes check. -/
theorem validateToken_failure_order (cfg : Config) (s : String) (tok : Token)
    (sip : Option String) (now : Int) :
    (verifyJwt cfg tok s now = .error .tokenExpired →
      validateToken cfg (.ok s) tok sip now =
        { isValid := false, error := some "Token expired" }) ∧
    (verifyJwt cfg tok s now = .error .notBefore →
      validateToken cfg (.ok s) tok sip now =
        { isValid := false, error := some "Token not yet valid" }) ∧
    (∀ msg, verifyJwt cfg tok s now = .error (.jsonWebToken msg) →
      validateToken cfg (.ok s) tok sip now =
        { isValid := false, error := some ("Invalid token: " ++ msg) }) ∧
    (truthyOptStr tok.payload.sub = false →
      verifyJwt cfg tok s now = .ok tok.payload →
      validateToken cfg (.ok s) tok sip now =
        { isValid := false, error := some "Missing subject (user ID) in token" }) ∧
    (verifyJwt cfg tok s now = .ok tok.payload →
      truthyOptStr tok.payload.sub = true →
      missingOrInvalidArray tok.payload.roles = true →
      validateToken cfg (.ok s) tok sip now =
        { isValid := false, error := some "Missing or invalid roles in token" }) ∧
    (verifyJwt cfg tok s now = .ok tok.payload →
      truthyOptStr tok.payload.sub = true →
      missingOrInvalidArray tok.payload.roles = false →
      missingOrInvalidArray tok.payload.scopes = true →
      validateToken cfg (.ok s) tok sip now =
        { isValid := false, error := some "Missing or invalid scopes in token" }) := by
  refine ⟨?_, ?_, ?_, ?_, ?_, ?_⟩
  · intro h; simp only [validateToken]; rw [h]
  · intro h; simp only [validateToken]; rw [h]
  · intro msg h; simp only [validateToken]; rw [h]
  · intro hsub hver; simp only [validateToken]; rw [hver]; simp [hsub]
  · intro hver hsub hroles; simp only [validateToken]; rw [hver]
    simp [hsub, hroles]
  · intro hver hsub hroles hscopes; simp only [validateToken]; rw [hver]
    simp [hsub, hroles, hscopes]

/-- C4 witness: each failure condition observed in isolation on a
concrete token, with its distinct reason. -/
theorem validateToken_failure_order_witness :
    validateToken defaultConfig (.ok "k") c4TokExpired none 2000 =
      { isValid := false, error := some "Token expired" } ∧
    validateToken defaultConfig (.ok "k") c4TokNbf none 10 =
      { isValid := false, error := some "Token not yet valid" } ∧
    validateToken defaultConfig (.ok "k") c4TokBadSig none 10 =
      { isValid := false, error := some ("Invalid token: " ++ "invalid signature") } ∧
    validateToken defaultConfig (.ok "k") c4TokNoSub none 10 =
      { isValid := false, error := some "Missing subject (user ID) in token" } ∧
    validateToken defaultConfig (.ok "k") c4TokBadRoles none 10 =
      { isValid := false, error := some "Missing or invalid roles in token" } ∧
    validateToken defaultConfig (.ok "k") c4TokBadScopes none 10 =
      { isValid := false, error := some "Missing or invalid scopes in token" } :=
  ⟨(validateToken_failure_order defaultConfig "k" c4TokExpired none 2000).1 rfl,
   (validateToken_failure_order defaultConfig "k" c4TokNbf none 10).2.1 rfl,
   (validateToken_failure_order defaultConfig "k" c4TokBadSig none 10).2.2.1
     "invalid signature" rfl,
   (validateToken_failure_order defaultConfig "k" c4TokNoSub none 10).2.2.2.1
     rfl rfl,
   (validateToken_failure_order defaultConfig "k" c4TokBadRoles none 10).2.2.2.2.1
     rfl rfl rfl,
   (validateToken_failure_order defaultConfig "k" c4TokBadScopes none 10).2.2.2.2.2
     rfl rfl rfl rfl⟩

/-- C7: when verification and the claim checks succeed, a bound IP that
differs from a supplied origin IP yields exactly the IP mismatch failure,
while an absent bound IP or absent origin skips the binding check and the
validation succeeds. -/
theorem ip_binding_check (cfg : Config) (s : String) (tok : Token) (now : Int)
    (hver : verifyJwt cfg tok s now = .ok tok.payload)
    (hsub : truthyOptStr tok.payload.sub = true)
    (hroles : missingOrInvalidArray tok.payload.roles = false)
    (hscopes : missingOrInvalidArray tok.payload.scopes = false) :
    (∀ a b, tok.payload.ip = some a → a.isEmpty = false → b.isEmpty = false →
      a ≠ b → validateToken cfg (.ok s) tok (some b) now =
        { isValid := false, error := some "IP address mismatch" }) ∧
    (∀ sourceIp : Option String, tok.payload.ip = none ∨ sourceIp = none →
      (validateToken cfg (.ok s) tok sourceIp now).isValid = true) := by
  constructor
  · intro a b hip ha hb hab
    have hmm : ipMismatch tok.payload.ip (some b) = true := by
      rw [hip]; simp [ipMismatch, ha, hb, hab]
    simp only [validateToken]
    rw [hver]
    simp [hsub, hroles, hscopes, hmm]
  · intro sourceIp hskip
    have hip : ipMismatch tok.payload.ip sourceIp = false := by
      rcases hskip with h | h
      · rw [h]; cases sourceIp <;> rfl
      · rw [h]; exact ipMismatch_none_right _
    rw [validateToken_valid cfg s tok sourceIp now hver hsub hroles hscopes hip]

/-- C7 witness: the spec's example — bound IP "1.2.3.4" observed from
"5.6.7.8" is rejected, the same token with no observed origin passes. -/
theorem ip_binding_check_witness :
    validateToken defaultConfig (.ok "top-secret") c7Tok (some "5.6.7.8") 10 =
      { isValid := false, error := some "IP address mismatch" } ∧
    (validateToken defaultConfig (.ok "top-secret") c7Tok none 10).isValid = true :=
  ⟨(ip_binding_check defaultConfig "top-secret" c7Tok 10 rfl rfl rfl rfl).1
     "1.2.3.4" "5.6.7.8" rfl rfl rfl (by decide),
   (ip_binding_check defaultConfig "top-secret" c7Tok 10 rfl rfl rfl rfl).2
     none (Or.inr rfl)⟩

/-- C5: when the local bypass does not apply, the cache holds no fresh
entry, and the store fetch fails or yields an empty value, the resolver
propagates the failure with the cache unchanged (no stale or default
value served), the validator absorbs it into an Invalid outcome, and the
handler answers with a specific-resource Deny. -/
theorem secret_failure_specific_deny (env : Env) (ev : AuthorizerEvent) (t : String)
    (hbp : envUseLocal env = false)
    (hstale : ∀ e, cacheLookup env.cache env.cfg.secretName = some e →
      env.cfg.cacheExpiryMs ≤ env.nowMs - e.timestamp)
    (hfail : env.store = .error () ∨ env.store = .ok none ∨ env.store = .ok (some ""))
    (ht : extractToken ev.authorizationToken = some t)
    (hne : t.isEmpty = false) :
    (getSecret env.cfg (envUseLocal env) env.cache env.store
      env.cfg.secretName env.nowMs).1 = .error () ∧
    (getSecret env.cfg (envUseLocal env) env.cache env.store
      env.cfg.secretName env.nowMs).2.1 = env.cache ∧
    (validateTokenS env.cfg (envUseLocal env) env.cache env.store
      (env.decode t) none env.nowSec env.nowMs).1 =
      { isValid := false, error := some "Error validating token" } ∧
    handler env ev =
      { principalId := "anonymous",
        policyDocument :=
          { Version := "2012-10-17",
            Statement := [{ Action := "execute-api:Invoke", Effect := "Deny",
                            Resource := ev.methodArn }] },
        context := none } := by
  have hfetch : fetchSecret env.cache env.store env.cfg.secretName env.nowMs =
      (.error (), env.cache, 1) := by
    rcases hfail with h | h | h <;> rw [h] <;> rfl
  have hg : getSecret env.cfg (envUseLocal env) env.cache env.store
      env.cfg.secretName env.nowMs = (.error (), env.cache, 1) := by
    simp only [getSecret, hbp, Bool.false_and, Bool.false_eq_true, if_false]
    split
    · next entry heq =>
      rw [if_neg (not_lt.mpr (hstale entry heq))]
      exact hfetch
    · exact hfetch
  have h3 : (validateTokenS env.cfg (envUseLocal env) env.cache env.store
      (env.decode t) none env.nowSec env.nowMs).1 =
      { isValid := false, error := some "Error validating token" } := by
    simp only [validateTokenS]
    rw [hg]
    rfl
  refine ⟨by rw [hg], by rw [hg], h3, ?_⟩
  show handlerBody env ev = _
  simp only [handlerBody]
  rw [ht]
  simp [hne, h3, generateDenyPolicy, generatePolicy]

/-- C5 witness: a failing store with an empty cache in production mode,
for a request carrying a Bearer token. -/
theorem secret_failure_specific_deny_witness :
    (getSecret failStoreEnv.cfg (envUseLocal failStoreEnv) failStoreEnv.cache
      failStoreEnv.store failStoreEnv.cfg.secretName failStoreEnv.nowMs).1 = .error () ∧
    (getSecret failStoreEnv.cfg (envUseLocal failStoreEnv) failStoreEnv.cache
      failStoreEnv.store failStoreEnv.cfg.secretName failStoreEnv.nowMs).2.1 =
      failStoreEnv.cache ∧
    (validateTokenS failStoreEnv.cfg (envUseLocal failStoreEnv) failStoreEnv.cache
      failStoreEnv.store (failStoreEnv.decode "abc") none failStoreEnv.nowSec
      failStoreEnv.nowMs).1 =
      { isValid := false, error := some "Error validating token" } ∧
    handler failStoreEnv
        { authorizationToken := some "Bearer abc",
          methodArn := "arn:aws:execute-api:res" } =
      { principalId := "anonymous",
        policyDocument :=
          { Version := "2012-10-17",
            Statement := [{ Action := "execute-api:Invoke", Effect := "Deny",
                            Resource := "arn:aws:execute-api:res" }] },
        context := none } :=
  secret_failure_specific_deny failStoreEnv
    { authorizationToken := some "Bearer abc",
      methodArn := "arn:aws:execute-api:res" } "abc"
    rfl (fun e h => Option.noConfusion h) (Or.inl rfl) (by decide) rfl

/-- C1: a token that verifies under the current key, is not expired, has
its not-before satisfied, carries the configured issuer and audience, a
non-empty subject, non-empty string roles and scopes, and triggers no IP
mismatch, validates to `Valid` with the token's own subject, roles and
scopes; the handler's decision is Allow for the method ARN with context
exactly the principal, the comma-joined roles and scopes in order, the
duplicate principal header field, the "true" authenticated flag and the
timestamp. -/
theorem valid_token_allow_decision
    (env : Env) (ev : AuthorizerEvent) (t s sub : String) (tok : Token)
    (rs ss : List String)
    (ht : extractToken ev.authorizationToken = some t)
    (hne : t.isEmpty = false)
    (hdec : env.decode t = tok)
    (hsec : (getSecret env.cfg (envUseLocal env) env.cache env.store
      env.cfg.secretName env.nowMs).1 = .ok s)
    (hwf : tok.wellFormed = true)
    (halg : tok.alg = env.cfg.algorithm)
    (hsig : tok.signedWith = s)
    (hnbf : ∀ n, tok.payload.nbf = some n → n ≤ env.nowSec)
    (hexp : ∀ e, tok.payload.exp = some e → env.nowSec < e)
    (haud : tok.payload.aud = some env.cfg.audience)
    (hiss : tok.payload.iss = some env.cfg.issuer)
    (hsub : tok.payload.sub = some sub)
    (hsubne : sub.isEmpty = false)
    (hroles : tok.payload.roles = some (.arr (rs.map .str)))
    (hrsne : rs ≠ [])
    (hscopes : tok.payload.scopes = some (.arr (ss.map .str)))
    (hssne : ss ≠ []) :
    (validateTokenS env.cfg (envUseLocal env) env.cache env.store tok none
        env.nowSec env.nowMs).1 =
      { isValid := true, userId := some sub, roles := some (rs.map .str),
        scopes := some (ss.map .str), error := none } ∧
    handler env ev =
      { principalId := sub,
        policyDocument :=
          { Version := "2012-10-17",
            Statement := [{ Action := "execute-api:Invoke", Effect := "Allow",
                            Resource := ev.methodArn }] },
        context := some { userId := sub, roles := joinComma rs,
                          scopes := joinComma ss, userIdHeader := sub,
                          authenticated := "true", timestamp := env.nowIso } } := by
  have hver : verifyJwt env.cfg tok s env.nowSec = .ok tok.payload :=
    verifyJwt_ok env.cfg tok s env.nowSec hwf halg hsig
      (nbfFuture_false hnbf) (expPassed_false hexp) haud hiss
  have hsubT : truthyOptStr tok.payload.sub = true := by
    rw [hsub]; simp [truthyOptStr, hsubne]
  have hrolesF : missingOrInvalidArray tok.payload.roles = false := by
    rw [hroles]
    cases rs with
    | nil => exact absurd rfl hrsne
    | cons a as => rfl
  have hscopesF : missingOrInvalidArray tok.payload.scopes = false := by
    rw [hscopes]
    cases ss with
    | nil => exact absurd rfl hssne
    | cons a as => rfl
  have hvalid : validateToken env.cfg (.ok s) tok none env.nowSec =
      { isValid := true, userId := some sub, roles := some (rs.map .str),
        scopes := some (ss.map .str), error := none } := by
    rw [validateToken_valid env.cfg s tok none env.nowSec hver hsubT hrolesF
      hscopesF (ipMismatch_none_right _), hsub, hroles, hscopes]
    rfl
  have hvS : (validateTokenS env.cfg (envUseLocal env) env.cache env.store tok
      none env.nowSec env.nowMs).1 =
      { isValid := true, userId := some sub, roles := some (rs.map .str),
        scopes := some (ss.map .str), error := none } := by
    simp only [validateTokenS]
    rw [hsec]
    exact hvalid
  refine ⟨hvS, ?_⟩
  show handlerBody env ev = _
  simp only [handlerBody]
  rw [ht]
  simp only [hne, Bool.false_eq_true, if_false, hdec, hvS]
  simp [generateAllowPolicy, generatePolicy, jsJoin, jsJoinList_map_str]

/-- C1 witness: a concrete production environment, store key and token
realizing every hypothesis, with the resulting Allow decision. -/
theorem valid_token_allow_decision_witness :
    (validateTokenS baseEnv.cfg (envUseLocal baseEnv) baseEnv.cache
        baseEnv.store goodTok none baseEnv.nowSec baseEnv.nowMs).1 =
      { isValid := true, userId := some "u42",
        roles := some (["admin", "editor"].map JsonValue.str),
        scopes := some (["read"].map JsonValue.str), error := none } ∧
    handler baseEnv
        { authorizationToken := some "Bearer abc",
          methodArn := "arn:aws:execute-api:res" } =
      { principalId := "u42",
        policyDocument :=
          { Version := "2012-10-17",
            Statement := [{ Action := "execute-api:Invoke", Effect := "Allow",
                            Resource := "arn:aws:execute-api:res" }] },
        context := some { userId := "u42", roles := joinComma ["admin", "editor"],
                          scopes := joinComma ["read"], userIdHeader := "u42",
                          authenticated := "true",
                          timestamp := "2026-01-01T00:00:00.000Z" } } :=
  valid_token_allow_decision baseEnv
    { authorizationToken := some "Bearer abc",
      methodArn := "arn:aws:execute-api:res" }
    "abc" "top-secret" "u42" goodTok ["admin", "editor"] ["read"]
    (by decide) rfl rfl rfl rfl rfl rfl
    (fun n h => Option.noConfusion h)
    (fun e h => by
      have he : (1000 : Int) = e := Option.some.inj h
      rw [← he]
      decide)
    rfl rfl rfl rfl rfl (by decide) rfl (by decide)

/-- C8 counterexample: the single statement's action in every decision is
the literal "execute-api:Invoke", not "invoke" — shown on the deny-all
decision for a request with no credential. -/
theorem decision_action_counterexample :
    (handler baseEnv { authorizationToken := none,
                       methodArn := "arn:aws:execute-api:res" }).policyDocument.Statement.map
      PolicyStatement.Action = ["execute-api:Invoke"] ∧
    ("execute-api:Invoke" : String) ≠ "invoke" :=
  ⟨rfl, by decide⟩

/-- C8 amended: every decision the handler returns carries a
policyDocument of shape Version "2012-10-17" with a single statement for
the "execute-api:Invoke" action, an Allow or Deny effect, and a context
only on Allow. -/
theorem decision_shape_amended (env : Env) (ev : AuthorizerEvent) :
    (handler env ev).policyDocument.Version = "2012-10-17" ∧
    (∃ eff res, (handler env ev).policyDocument.Statement =
        [{ Action := "execute-api:Invoke", Effect := eff, Resource := res }] ∧
      (eff = "Allow" ∨ eff = "Deny")) ∧
    (∀ c, (handler env ev).context = some c →
      (handler env ev).policyDocument.Statement.map PolicyStatement.Effect =
        ["Allow"]) := by
  rcases handler_shape env ev with h | h | ⟨u, rs, ss, h⟩ <;> rw [h]
  · exact ⟨rfl, ⟨"Deny", "*", rfl, Or.inr rfl⟩, fun c hc => Option.noConfusion hc⟩
  · exact ⟨rfl, ⟨"Deny", ev.methodArn, rfl, Or.inr rfl⟩,
      fun c hc => Option.noConfusion hc⟩
  · exact ⟨rfl, ⟨"Allow", ev.methodArn, rfl, Or.inl rfl⟩, fun c hc => rfl⟩

/-- C8 amended witness: the shape facts at a concrete decision. -/
theorem decision_shape_amended_witness :
    (handler baseEnv { authorizationToken := none,
                       methodArn := "arn:aws:execute-api:res" }).policyDocument.Version =
      "2012-10-17" :=
  (decision_shape_amended baseEnv
    { authorizationToken := none, methodArn := "arn:aws:execute-api:res" }).1

/-- C6 counterexample: in development mode with a local secret set, a
secret name with a fresh cache entry is answered from the local bypass,
not with the cached value — refuting the unconditional cache-hit claim. -/
theorem cache_fresh_hit_counterexample :
    cacheLookup cexEnv.cache cexEnv.cfg.secretName =
      some { value := "cached-key", timestamp := 0 } ∧
    cexEnv.nowMs - 0 < cexEnv.cfg.cacheExpiryMs ∧
    (getSecret cexEnv.cfg (envUseLocal cexEnv) cexEnv.cache cexEnv.store
      cexEnv.cfg.secretName cexEnv.nowMs).1 = .ok "local-key" ∧
    ("local-key" : String) ≠ "cached-key" :=
  ⟨rfl, by decide, rfl, by decide⟩

/-- C6 amended: unless the local-development bypass applies to the name,
a cache entry fresher than the expiry is returned unchanged with no
store call; and validating the same valid token twice within the TTL
yields identical outcomes with at most one underlying store fetch. -/
theorem cache_fresh_hit_amended :
    (∀ (cfg : Config) (useLocal : Bool) (cache : SecretCache)
        (store : Except Unit (Option String)) (name : String) (nowMs : Int)
        (e : CacheEntry),
      (useLocal && (name == cfg.secretName) && truthyOptStr cfg.localSecret) =
        false →
      cacheLookup cache name = some e →
      nowMs - e.timestamp < cfg.cacheExpiryMs →
      getSecret cfg useLocal cache store name nowMs = (.ok e.value, cache, 0)) ∧
    (∀ (cfg : Config) (useLocal : Bool) (c0 : SecretCache) (s : String)
        (tok : Token) (t0s t1s t0ms t1ms : Int),
      (useLocal && truthyOptStr cfg.localSecret) = false →
      cacheLookup c0 cfg.secretName = none →
      s.isEmpty = false →
      t1ms - t0ms < cfg.cacheExpiryMs →
      tok.wellFormed = true → tok.alg = cfg.algorithm → tok.signedWith = s →
      (∀ n, tok.payload.nbf = some n → n ≤ t0s) →
      (∀ n, tok.payload.nbf = some n → n ≤ t1s) →
      (∀ e, tok.payload.exp = some e → t0s < e) →
      (∀ e, tok.payload.exp = some e → t1s < e) →
      tok.payload.aud = some cfg.audience → tok.payload.iss = some cfg.issuer →
      truthyOptStr tok.payload.sub = true →
      missingOrInvalidArray tok.payload.roles = false →
      missingOrInvalidArray tok.payload.scopes = false →
      ∀ r1 c1 n1,
        validateTokenS cfg useLocal c0 (.ok (some s)) tok none t0s t0ms =
          (r1, c1, n1) →
      ∀ r2 c2 n2,
        validateTokenS cfg useLocal c1 (.ok (some s)) tok none t1s t1ms =
          (r2, c2, n2) →
      r1 = r2 ∧ r1.isValid = true ∧ n1 + n2 ≤ 1) := by
  constructor
  · intro cfg useLocal cache store name nowMs e hbp he hfresh
    simp only [getSecret, hbp, Bool.false_eq_true, if_false]
    split
    · next entry heq =>
      have hee : e = entry := Option.some.inj (he.symm.trans heq)
      rw [← hee, if_pos hfresh]
    · next heq => rw [he] at heq; exact Option.noConfusion heq
  · intro cfg useLocal c0 s tok t0s t1s t0ms t1ms hbp hc0 hs hfresh hwf halg hsig
      hnbf0 hnbf1 hexp0 hexp1 haud hiss hsubT hrolesF hscopesF r1 c1 n1 h1
      r2 c2 n2 h2
    have hguard : (useLocal && (cfg.secretName == cfg.secretName) &&
        truthyOptStr cfg.localSecret) = false := by simpa using hbp
    have hg1 : getSecret cfg useLocal c0 (.ok (some s)) cfg.secretName t0ms =
        (.ok s, cacheInsert c0 cfg.secretName { value := s, timestamp := t0ms },
          1) := by
      simp only [getSecret, hguard, Bool.false_eq_true, if_false]
      split
      · next entry heq => rw [hc0] at heq; exact Option.noConfusion heq
      · simp [fetchSecret, hs]
    have hver0 : verifyJwt cfg tok s t0s = .ok tok.payload :=
      verifyJwt_ok cfg tok s t0s hwf halg hsig (nbfFuture_false hnbf0)
        (expPassed_false hexp0) haud hiss
    have hver1 : verifyJwt cfg tok s t1s = .ok tok.payload :=
      verifyJwt_ok cfg tok s t1s hwf halg hsig (nbfFuture_false hnbf1)
        (expPassed_false hexp1) haud hiss
    have hv0 := validateToken_valid cfg s tok none t0s hver0 hsubT hrolesF
      hscopesF (ipMismatch_none_right _)
    have hv1 := validateToken_valid cfg s tok none t1s hver1 hsubT hrolesF
      hscopesF (ipMismatch_none_right _)
    have e1 : validateTokenS cfg useLocal c0 (.ok (some s)) tok none t0s t0ms =
        (validateToken cfg (.ok s) tok none t0s,
          cacheInsert c0 cfg.secretName { value := s, timestamp := t0ms }, 1) := by
      simp only [validateTokenS]
      rw [hg1]
    have hkey := h1.symm.trans e1
    simp only [Prod.ext_iff] at hkey
    obtain ⟨hr1, hc1, hn1⟩ := hkey
    have hg2 : getSecret cfg useLocal c1 (.ok (some s)) cfg.secretName t1ms =
        (.ok s, c1, 0) := by
      rw [hc1]
      simp only [getSecret, hguard, Bool.false_eq_true, if_false,
        cacheLookup_insert]
      rw [if_pos hfresh]
    have e2 : validateTokenS cfg useLocal c1 (.ok (some s)) tok none t1s t1ms =
        (validateToken cfg (.ok s) tok none t1s, c1, 0) := by
      simp only [validateTokenS]
      rw [hg2]
    have hkey2 := h2.symm.trans e2
    simp only [Prod.ext_iff] at hkey2
    obtain ⟨hr2, hc2, hn2⟩ := hkey2
    refine ⟨?_, ?_, ?_⟩
    · rw [hr1, hr2, hv0, hv1]
    · rw [hr1, hv0]
    · rw [hn1, hn2]

/-- C6 amended witness: a fresh cache hit served with no store call, and
the two-validation scenario with one fetch in total. -/
theorem cache_fresh_hit_amended_witness :
    getSecret defaultConfig false
        [("magento/jwt/secret", { value := "k", timestamp := 0 })] (.error ())
        "magento/jwt/secret" 100 =
      (.ok "k", [("magento/jwt/secret", { value := "k", timestamp := 0 })], 0) ∧
    ((validateTokenS defaultConfig false [] (.ok (some "k")) c6Tok none 1 3).1 =
        (validateTokenS defaultConfig false
          (validateTokenS defaultConfig false [] (.ok (some "k")) c6Tok
            none 1 3).2.1
          (.ok (some "k")) c6Tok none 2 4).1 ∧
      (validateTokenS defaultConfig false [] (.ok (some "k")) c6Tok
        none 1 3).1.isValid = true ∧
      (validateTokenS defaultConfig false [] (.ok (some "k")) c6Tok
          none 1 3).2.2 +
        (validateTokenS defaultConfig false
          (validateTokenS defaultConfig false [] (.ok (some "k")) c6Tok
            none 1 3).2.1
          (.ok (some "k")) c6Tok none 2 4).2.2 ≤ 1) :=
  ⟨cache_fresh_hit_amended.1 defaultConfig false
      [("magento/jwt/secret", { value := "k", timestamp := 0 })] (.error ())
      "magento/jwt/secret" 100 { value := "k", timestamp := 0 }
      rfl rfl (by decide),
   cache_fresh_hit_amended.2 defaultConfig false [] "k" c6Tok 1 2 3 4
     rfl rfl rfl (by decide) rfl rfl rfl
     (fun n h => Option.noConfusion h) (fun n h => Option.noConfusion h)
     (fun e h => by
       have he : (1000 : Int) = e := Option.some.inj h
       rw [← he]; decide)
     (fun e h => by
       have he : (1000 : Int) = e := Option.some.inj h
       rw [← he]; decide)
     rfl rfl rfl rfl rfl _ _ _ rfl _ _ _ rfl⟩

end MwAuth
